import Mathlib

/-!
# Verification of the MorphoLapse face-morphing core

Shallow embedding of the morphing engine of the MorphoLapse repository:

* `src/core/face_morpher.py` — easing curves (`FaceMorpher._apply_easing`),
  blend modes (`FaceMorpher._blend_images`), input validation
  (`FaceMorpher._validate_inputs`), triangle warping
  (`FaceMorpher._morph_triangle`, `FaceMorpher.warp_image`), frame synthesis
  (`FaceMorpher._morph_frame`), and the frame generator
  (`FaceMorpher.stream_morph_frames`, `FaceMorpher.stream_cross_dissolve`).
* `src/core/face_aligner.py` — the Procrustes transform computation
  (`FaceAligner._compute_transformation`).
* `src/modules/step_morph.py` — the per-pair frame emission of `morph_faces`.

Machine floating-point numbers are modelled by exact rationals `ℚ` (reals `ℝ`
for the aligner, whose standard deviation takes a square root); where a claim
hinges on IEEE non-finite values (division by zero producing ±inf or NaN) the
affected operation is modelled explicitly with an `Option` result, `none`
standing for a non-finite value.  Opaque external library routines
(`cv2.fillConvexPoly`, `cv2.getAffineTransform`, `cv2.warpAffine`,
`cv2.resize`, `scipy.spatial.Delaunay`) are parameters of the embedding,
gathered in a `CVModel` structure; theorems quantify over all models, and
witnesses instantiate a simple concrete model.
-/

namespace MorphoLapse

/-- `EasingFunction` enum from `face_morpher.py` lines 16-23. -/
inductive EasingFunction where
  | linear
  | ease_in
  | ease_out
  | ease_in_out
  | cubic
  | bounce
deriving DecidableEq, Repr

/-- `BlendMode` enum from `face_morpher.py` lines 26-31. -/
inductive BlendMode where
  | alpha
  | additive
  | multiply
  | screen
deriving DecidableEq, Repr

/-- `FaceMorpher._apply_easing` (`face_morpher.py` lines 75-110), with the
float literals written as the exact rationals they denote
(`7.5625 = 121/16`, `2.75 = 11/4`, etc.). -/
def applyEasing (t : ℚ) (easing : EasingFunction) : ℚ :=
  match easing with
  | .linear => t
  | .ease_in => t * t
  | .ease_out => 1 - (1 - t) ^ 2
  | .ease_in_out =>
      if t < 1/2 then 2 * t * t
      else 1 - (-2 * t + 2) ^ 2 / 2
  | .cubic => t * t * t
  | .bounce =>
      if t < 1 / (11/4) then (121/16) * t * t
      else if t < 2 / (11/4) then
        let t' := t - (3/2) / (11/4)
        (121/16) * t' * t' + 3/4
      else if t < (5/2) / (11/4) then
        let t' := t - (9/4) / (11/4)
        (121/16) * t' * t' + 15/16
      else
        let t' := t - (21/8) / (11/4)
        (121/16) * t' * t' + 63/64

/-- Pixel-level blend formula of `FaceMorpher._blend_images`
(`face_morpher.py` lines 137-149); inputs are normalized pixel values,
`alpha` the mix coefficient. -/
def blendPixel (mode : BlendMode) (alpha p1 p2 : ℚ) : ℚ :=
  match mode with
  | .alpha => (1 - alpha) * p1 + alpha * p2
  | .additive => min (p1 + alpha * p2) 1
  | .multiply => ((1 - alpha) * p1 + alpha * 1) * p2
  | .screen => 1 - ((1 - alpha) * (1 - p1) + alpha * (1 - p2))

/-- `np.clip(x, 0, 1)` — clamp into `[0, 1]`. -/
def clip01 (x : ℚ) : ℚ := min (max x 0) 1

/-- `.astype(np.uint8)` applied to a non-negative float in `[0, 255]`:
truncation toward zero, i.e. the floor. -/
def toU8 (x : ℚ) : ℕ := (⌊x⌋).toNat

/-- The final pixel conversion of `FaceMorpher._blend_images` line 151:
`(np.clip(blended, 0, 1) * 255).astype(np.uint8)`. -/
def blendOutPixel (mode : BlendMode) (alpha p1 p2 : ℚ) : ℕ :=
  toU8 (clip01 (blendPixel mode alpha p1 p2) * 255)

/-- A numpy floating-point scalar that may be non-finite; landmark coordinate
entries.  `fin q` is an ordinary (finite) value, `nan` / `inf` the IEEE
specials tested by `np.isnan` / `np.isinf` in `_validate_inputs`. -/
inductive Fl where
  | fin (q : ℚ)
  | nan
  | inf
deriving DecidableEq, Repr

def Fl.isNaN : Fl → Bool
  | .nan => true
  | _ => false

def Fl.isInf : Fl → Bool
  | .inf => true
  | _ => false

/-- The rational value of a finite `Fl`; only applied after validation has
ruled out `nan` and `inf` (the default on those never fires there). -/
def Fl.toQ : Fl → ℚ
  | .fin q => q
  | _ => 0

/-- A landmark array of numpy shape `(N, 2)`. -/
abbrev Lms := List (Fl × Fl)

/-- `(N, 2)` landmark arrays with finite entries, as plain rational points. -/
def lmsToQ (lms : Lms) : List (ℚ × ℚ) := lms.map (fun p => (p.1.toQ, p.2.toQ))

/-- A numpy image array, modelled per channel: `shape` is the numpy shape
(`[h, w]` for the 2-D images the morpher works on) and `data r c` the pixel
value at row `r`, column `c`. -/
structure Img where
  shape : List ℕ
  data : ℕ → ℕ → ℚ

/-- `image.shape[0]`. -/
def Img.h (im : Img) : ℕ := im.shape.getD 0 0

/-- `image.shape[1]`. -/
def Img.w (im : Img) : ℕ := im.shape.getD 1 0

/-- `cv2.boundingRect` result: `(x, y, w, h)`. -/
structure Rect where
  x : ℤ
  y : ℤ
  w : ℤ
  h : ℤ
deriving DecidableEq, Repr

/-- `cv2.boundingRect(np.float32([pts]))`.  For floating-point input OpenCV
takes the floor of the coordinate-wise minima and maxima and returns
`Rect(xmin, ymin, xmax - xmin + 1, ymax - ymin + 1)`. -/
def boundingRect (pts : List (ℚ × ℚ)) : Rect :=
  let xs := pts.map Prod.fst
  let ys := pts.map Prod.snd
  let xmin := ⌊xs.foldr min (xs.headD 0)⌋
  let ymin := ⌊ys.foldr min (ys.headD 0)⌋
  let xmax := ⌊xs.foldr max (xs.headD 0)⌋
  let ymax := ⌊ys.foldr max (ys.headD 0)⌋
  { x := xmin, y := ymin, w := xmax - xmin + 1, h := ymax - ymin + 1 }

/-- A `cv2.getAffineTransform` result (2×3 matrix). -/
structure Aff where
  a : ℚ
  b : ℚ
  tx : ℚ
  c : ℚ
  d : ℚ
  ty : ℚ
deriving DecidableEq, Repr

/-- `np.int32` cast of a float: truncation toward zero. -/
def truncInt (q : ℚ) : ℤ := if 0 ≤ q then ⌊q⌋ else -⌊-q⌋

/-- The opaque external library routines the morpher calls
(`scipy.spatial.Delaunay` and the `cv2` rasterization / resampling
primitives).  The embedding is parametric in this model; theorems hold for
every model, and concrete witnesses instantiate a simple one. -/
structure CVModel where
  /-- `scipy.spatial.Delaunay(points).simplices` (`compute_triangulation`). -/
  delaunay : List (ℚ × ℚ) → List (ℕ × ℕ × ℕ)
  /-- `cv2.resize(img, (w, h))`: pixel data of the resized image. -/
  resize : Img → ℕ → ℕ → ℕ → ℕ → ℚ
  /-- `cv2.fillConvexPoly(mask, pts, (1,1,1), cv2.LINE_AA, 0)` on an `h×w`
  zero mask: the resulting mask value at row/column. -/
  fillConvexPoly : ℤ → ℤ → List (ℤ × ℤ) → ℕ → ℕ → ℚ
  /-- `cv2.getAffineTransform(src, dst)`; `none` models a raised
  `cv2.error` (caught by the `try/except` in `_morph_triangle`). -/
  getAffineTransform : List (ℚ × ℚ) → List (ℚ × ℚ) → Option Aff
  /-- `cv2.warpAffine(srcCrop, M, (w, h), flags=interp, borderMode=border)`:
  pixel data of the warped patch. -/
  warpAffine : Img → Aff → ℤ → ℤ → ℕ → ℕ → ℕ → ℕ → ℚ

/-- `MorphConfig` from `face_morpher.py` lines 34-41 (the `quality` selector
is consumed only by `_quality_settings`, which none of the embedded
operations read).  `interpolation`/`borderMode` are the OpenCV flag values. -/
structure MorphConfig where
  easing : EasingFunction := .linear
  blendMode : BlendMode := .alpha
  interpolation : ℕ := 1
  borderMode : ℕ := 4

/-- Triangle vertex coordinates `landmarks[triangle_indices]`. -/
def triPoints (lms : List (ℚ × ℚ)) (t : ℕ × ℕ × ℕ) : List (ℚ × ℚ) :=
  [lms.getD t.1 (0, 0), lms.getD t.2.1 (0, 0), lms.getD t.2.2 (0, 0)]

/-- Triangle vertices relative to a bounding rectangle
(`src_rect` / `dst_rect` in `_morph_triangle`). -/
def relRect (tri : List (ℚ × ℚ)) (r : Rect) : List (ℚ × ℚ) :=
  tri.map (fun p => (p.1 - (r.x : ℚ), p.2 - (r.y : ℚ)))

/-- `FaceMorpher._morph_triangle` (`face_morpher.py` lines 525-599): warp one
triangle of `srcImage` into `dstImage`.  Every early `return` leaves the
destination unchanged; the final write composites
`region * (1 - mask) + warped * mask` over the destination rectangle. -/
def morphTriangle (model : CVModel) (cfg : MorphConfig)
    (srcImage dstImage : Img) (srcTri dstTri : List (ℚ × ℚ)) : Img :=
  let r1 := boundingRect srcTri
  let r2 := boundingRect dstTri
  if r1.w ≤ 0 ∨ r1.h ≤ 0 ∨ r2.w ≤ 0 ∨ r2.h ≤ 0 then dstImage
  else
    let srcRect := relRect srcTri r1
    let dstRect := relRect dstTri r2
    let mask : ℕ → ℕ → ℚ :=
      model.fillConvexPoly r2.h r2.w (dstRect.map (fun p => (truncInt p.1, truncInt p.2)))
    let h : ℤ := srcImage.h
    let w : ℤ := srcImage.w
    let y1 := max 0 r1.y
    let y2 := min h (r1.y + r1.h)
    let x1 := max 0 r1.x
    let x2 := min w (r1.x + r1.w)
    if y2 ≤ y1 ∨ x2 ≤ x1 then dstImage
    else
      let srcCrop : Img :=
        { shape := [(y2 - y1).toNat, (x2 - x1).toNat],
          data := fun r c => srcImage.data (r + y1.toNat) (c + x1.toNat) }
      if y2 - y1 ≠ r1.h ∨ x2 - x1 ≠ r1.w then dstImage
      else
        match model.getAffineTransform srcRect dstRect with
        | none => dstImage
        | some warpMat =>
          let warped : ℕ → ℕ → ℚ :=
            model.warpAffine srcCrop warpMat r2.w r2.h cfg.interpolation cfg.borderMode
          let bh : ℤ := dstImage.h
          let bw : ℤ := dstImage.w
          let dy1 := max 0 r2.y
          let dy2 := min bh (r2.y + r2.h)
          let dx1 := max 0 r2.x
          let dx2 := min bw (r2.x + r2.w)
          if dy2 - dy1 ≠ r2.h ∨ dx2 - dx1 ≠ r2.w then dstImage
          else
            { shape := dstImage.shape,
              data := fun r c =>
                if dy1 ≤ (r : ℤ) ∧ (r : ℤ) < dy2 ∧ dx1 ≤ (c : ℤ) ∧ (c : ℤ) < dx2 then
                  let mr := ((r : ℤ) - dy1).toNat
                  let mc := ((c : ℤ) - dx1).toNat
                  dstImage.data r c * (1 - mask mr mc) + warped mr mc * mask mr mc
                else dstImage.data r c }

/-- `FaceMorpher.warp_image` (`face_morpher.py` lines 265-291): the output
buffer is initialized as `image.copy()` and each triangle of the
triangulation is warped into it. -/
def warpImage (model : CVModel) (cfg : MorphConfig) (image : Img)
    (sourceLandmarks targetLandmarks : List (ℚ × ℚ))
    (triangulation : List (ℕ × ℕ × ℕ)) : Img :=
  triangulation.foldl
    (fun output t =>
      morphTriangle model cfg image output
        (triPoints sourceLandmarks t) (triPoints targetLandmarks t))
    image

/-- `np.any(np.isnan(landmarks))`. -/
def hasNaN (lms : Lms) : Bool := lms.any (fun p => p.1.isNaN || p.2.isNaN)

/-- `np.any(np.isinf(landmarks))`. -/
def hasInf (lms : Lms) : Bool := lms.any (fun p => p.1.isInf || p.2.isInf)

/-- `FaceMorpher._validate_inputs` (`face_morpher.py` lines 155-190), checks
in source order: `None` images, image dimensionality `< 2`, `None`
landmarks, landmark shape mismatch (for `(N, 2)` arrays: differing lengths),
NaN entries, infinite entries. -/
def validateInputs (image1 image2 : Option Img)
    (landmarks1 landmarks2 : Option Lms) : Bool :=
  match image1, image2 with
  | none, _ => false
  | _, none => false
  | some im1, some im2 =>
    if im1.shape.length < 2 || im2.shape.length < 2 then false
    else
      match landmarks1, landmarks2 with
      | none, _ => false
      | _, none => false
      | some lm1, some lm2 =>
        if lm1.length ≠ lm2.length then false
        else if hasNaN lm1 || hasNaN lm2 then false
        else if hasInf lm1 || hasInf lm2 then false
        else true

/-- `FaceMorpher._blend_images` (`face_morpher.py` lines 114-151): resize the
second image when shapes differ, blend pixel-wise by mode, then
`(np.clip(blended, 0, 1) * 255).astype(np.uint8)`. -/
def blendImages (model : CVModel) (mode : BlendMode) (alpha : ℚ)
    (warped1 warped2 : Img) : Img :=
  let warped2' : Img :=
    if warped1.shape = warped2.shape then warped2
    else { shape := [warped1.h, warped1.w],
           data := model.resize warped2 warped1.w warped1.h }
  { shape := warped1.shape,
    data := fun r c =>
      (blendOutPixel mode alpha (warped1.data r c) (warped2'.data r c) : ℚ) }

/-- Landmark interpolation
`(1.0 - eased_alpha) * landmarks1 + eased_alpha * landmarks2`
(`_morph_frame` line 228). -/
def interpLandmarks (e : ℚ) (l1 l2 : List (ℚ × ℚ)) : List (ℚ × ℚ) :=
  List.zipWith (fun p q => ((1 - e) * p.1 + e * q.1, (1 - e) * p.2 + e * q.2)) l1 l2

/-- `FaceMorpher._morph_frame` (`face_morpher.py` lines 194-249) in the form
used by `stream_morph_frames`: the triangulation is the precomputed one,
`im1_float`/`im2_float` are the images themselves (already exact here). -/
def morphFrame (model : CVModel) (cfg : MorphConfig) (image1 image2 : Img)
    (landmarks1 landmarks2 : List (ℚ × ℚ)) (alpha : ℚ)
    (triangulation : List (ℕ × ℕ × ℕ)) : Img :=
  let easedAlpha := applyEasing alpha cfg.easing
  let weighted := interpLandmarks easedAlpha landmarks1 landmarks2
  let warped1 := warpImage model cfg image1 landmarks1 weighted triangulation
  let warped2 := warpImage model cfg image2 landmarks2 weighted triangulation
  let n1 : Img := { shape := warped1.shape, data := fun r c => warped1.data r c / 255 }
  let n2 : Img := { shape := warped2.shape, data := fun r c => warped2.data r c / 255 }
  blendImages model cfg.blendMode easedAlpha n1 n2

/-- `FaceMorpher.stream_cross_dissolve` (`face_morpher.py` lines 443-461).
`none` models a raised exception: `image.astype` on a `None` image raises
`AttributeError`; `cv2.resize` / `shape[1]` on an image of fewer than two
dimensions raises when a resize is needed.  Frames are
`((1 - eased) * im1 + eased * im2) * 255` cast to `uint8` (no clip on this
path). -/
def streamCrossDissolve (model : CVModel) (cfg : MorphConfig)
    (image1 image2 : Option Img) (numFrames : ℕ) : Option (List Img) :=
  match image1, image2 with
  | some img1, some img2 =>
    let im1 : Img := { shape := img1.shape, data := fun r c => img1.data r c / 255 }
    let im2 : Img := { shape := img2.shape, data := fun r c => img2.data r c / 255 }
    if im1.shape = im2.shape then
      some ((List.range numFrames).map (fun (i : ℕ) =>
        let alpha : ℚ := (i : ℚ) / (max 1 (numFrames - 1) : ℕ)
        let eased := applyEasing alpha cfg.easing
        { shape := im1.shape,
          data := fun r c =>
            (toU8 (((1 - eased) * im1.data r c + eased * im2.data r c) * 255) : ℚ) }))
    else if im1.shape.length < 2 then none
    else
      let im2' : Img := { shape := [im1.h, im1.w], data := model.resize im2 im1.w im1.h }
      some ((List.range numFrames).map (fun (i : ℕ) =>
        let alpha : ℚ := (i : ℚ) / (max 1 (numFrames - 1) : ℕ)
        let eased := applyEasing alpha cfg.easing
        { shape := im1.shape,
          data := fun r c =>
            (toU8 (((1 - eased) * im1.data r c + eased * im2'.data r c) * 255) : ℚ) }))
  | _, _ => none

/-- `avg_landmarks = (landmarks1 + landmarks2) / 2`
(`stream_morph_frames` line 371). -/
def avgLandmarks (l1 l2 : List (ℚ × ℚ)) : List (ℚ × ℚ) :=
  List.zipWith (fun p q => ((p.1 + q.1) / 2, (p.2 + q.2) / 2)) l1 l2

/-- `FaceMorpher.stream_morph_frames` (`face_morpher.py` lines 349-391): on
validation failure fall back to the cross dissolve of the raw inputs;
otherwise precompute the triangulation of the averaged landmarks and emit
`num_frames` frames with `alpha = frame_idx / max(1, num_frames - 1)`. -/
def streamMorphFrames (model : CVModel) (cfg : MorphConfig)
    (image1 image2 : Option Img) (landmarks1 landmarks2 : Option Lms)
    (numFrames : ℕ) : Option (List Img) :=
  if validateInputs image1 image2 landmarks1 landmarks2 = false then
    streamCrossDissolve model cfg image1 image2 numFrames
  else
    match image1, image2, landmarks1, landmarks2 with
    | some im1, some im2, some lm1, some lm2 =>
      let l1 := lmsToQ lm1
      let l2 := lmsToQ lm2
      let triangulation := model.delaunay (avgLandmarks l1 l2)
      some ((List.range numFrames).map (fun (frameIdx : ℕ) =>
        morphFrame model cfg im1 im2 l1 l2
          ((frameIdx : ℚ) / (max 1 (numFrames - 1) : ℕ)) triangulation))
    | _, _, _, _ => none

/-- The per-pair frame emission of `morph_faces`
(`step_morph.py` lines 252-273): cross dissolve when either landmark set is
`None`, else the morph stream; then `pause_frames` writes of the (resized)
second image `im2`. -/
def transitionFrames (model : CVModel) (cfg : MorphConfig) (im1 im2 : Img)
    (landmarks1 landmarks2 : Option Lms)
    (framesPerTransition pauseFrames : ℕ) : Option (List Img) :=
  let body : Option (List Img) :=
    match landmarks1, landmarks2 with
    | some lm1, some lm2 =>
        streamMorphFrames model cfg (some im1) (some im2) (some lm1) (some lm2)
          framesPerTransition
    | _, _ => streamCrossDissolve model cfg (some im1) (some im2) framesPerTransition
  body.map (fun frames => frames ++ List.replicate pauseFrames im2)

/-! ## FaceAligner (`src/core/face_aligner.py`)

`FaceAligner._compute_transformation` works in `np.float64`; it is embedded
over `ℝ` (the standard deviation takes a square root).  `np.linalg.svd` is an
opaque library routine: the embedding takes the factor matrices as arguments
and theorems hypothesise that they form a valid singular value decomposition
of the cross-covariance matrix the code feeds to `np.linalg.svd`. -/

noncomputable section Aligner

/-- A 2×2 real matrix `[[a, b], [c, d]]`. -/
structure Mat2 where
  a : ℝ
  b : ℝ
  c : ℝ
  d : ℝ

theorem Mat2.ext_iff {M N : Mat2} :
    M = N ↔ M.a = N.a ∧ M.b = N.b ∧ M.c = N.c ∧ M.d = N.d := by
  constructor
  · rintro rfl; exact ⟨rfl, rfl, rfl, rfl⟩
  · rcases M with ⟨a, b, c, d⟩
    rcases N with ⟨a', b', c', d'⟩
    rintro ⟨rfl, rfl, rfl, rfl⟩
    rfl

def Mat2.mul (M N : Mat2) : Mat2 :=
  { a := M.a * N.a + M.b * N.c, b := M.a * N.b + M.b * N.d,
    c := M.c * N.a + M.d * N.c, d := M.c * N.b + M.d * N.d }

def Mat2.transpose (M : Mat2) : Mat2 := { a := M.a, b := M.c, c := M.b, d := M.d }

def Mat2.det (M : Mat2) : ℝ := M.a * M.d - M.b * M.c

def Mat2.one : Mat2 := { a := 1, b := 0, c := 0, d := 1 }

/-- Orthogonality: `M Mᵀ = Mᵀ M = 1`. -/
def Mat2.IsOrthogonal (M : Mat2) : Prop :=
  Mat2.mul M M.transpose = Mat2.one ∧ Mat2.mul M.transpose M = Mat2.one

/-- A valid result of `np.linalg.svd(A)`: orthogonal `U`, `Vt` and descending
non-negative singular values `σ1 ≥ σ2 ≥ 0` with `U · diag(σ1, σ2) · Vt = A`. -/
def IsSVD (A U : Mat2) (σ1 σ2 : ℝ) (Vt : Mat2) : Prop :=
  U.IsOrthogonal ∧ Vt.IsOrthogonal ∧ 0 ≤ σ2 ∧ σ2 ≤ σ1 ∧
    Mat2.mul (Mat2.mul U { a := σ1, b := 0, c := 0, d := σ2 }) Vt = A

/-- A 3×3 real matrix. -/
structure Mat3 where
  m00 : ℝ
  m01 : ℝ
  m02 : ℝ
  m10 : ℝ
  m11 : ℝ
  m12 : ℝ
  m20 : ℝ
  m21 : ℝ
  m22 : ℝ

/-- The identity 3×3 matrix (the transform the spec expects from aligning a
point set onto itself). -/
def Mat3.one : Mat3 :=
  { m00 := 1, m01 := 0, m02 := 0, m10 := 0, m11 := 1, m12 := 0,
    m20 := 0, m21 := 0, m22 := 1 }

/-- `np.mean(points, axis=0)`: the centroid. -/
def centroid (pts : List (ℝ × ℝ)) : ℝ × ℝ :=
  ((pts.map Prod.fst).sum / pts.length, (pts.map Prod.snd).sum / pts.length)

/-- `points - np.mean(points, axis=0)`. -/
def centerPts (pts : List (ℝ × ℝ)) : List (ℝ × ℝ) :=
  pts.map (fun p => (p.1 - (centroid pts).1, p.2 - (centroid pts).2))

/-- The flattened view `np.std` takes of an `(N, 2)` array. -/
def flatten (pts : List (ℝ × ℝ)) : List ℝ :=
  pts.foldr (fun p acc => p.1 :: p.2 :: acc) []

/-- Mean of a list of reals (`np.mean` of the flattened array). -/
def lmean (l : List ℝ) : ℝ := l.sum / l.length

/-- `np.std(points)`: standard deviation over the flattened array. -/
def npStd (pts : List (ℝ × ℝ)) : ℝ :=
  let fl := flatten pts
  Real.sqrt (lmean (fl.map (fun v => (v - lmean fl) ^ 2)))

/-- `points / s`. -/
def divPts (pts : List (ℝ × ℝ)) (s : ℝ) : List (ℝ × ℝ) :=
  pts.map (fun p => (p.1 / s, p.2 / s))

/-- `np.dot(points1.T, points2)` for `(N, 2)` arrays: the 2×2
cross-covariance matrix. -/
def crossMat (p q : List (ℝ × ℝ)) : Mat2 :=
  { a := (List.zipWith (fun u v => u.1 * v.1) p q).sum,
    b := (List.zipWith (fun u v => u.1 * v.2) p q).sum,
    c := (List.zipWith (fun u v => u.2 * v.1) p q).sum,
    d := (List.zipWith (fun u v => u.2 * v.2) p q).sum }

/-- The matrix `np.linalg.svd` is applied to in
`FaceAligner._compute_transformation` (line 171): the cross-covariance of
the centered, spread-normalized point sets. -/
def svdInput (points1 points2 : List (ℝ × ℝ)) : Mat2 :=
  let p1 := centerPts points1
  let p2 := centerPts points2
  crossMat (divPts p1 (npStd p1)) (divPts p2 (npStd p2))

/-- `FaceAligner._compute_transformation` (`face_aligner.py` lines 143-194).
The orthogonal factors returned by `np.linalg.svd` on
`svdInput points1 points2` are passed in as `U`, `Vt` (the singular values
`S` are unused by the source; theorems hypothesise `IsSVD`).  Returns the
3×3 matrix `M` with `M[:2,:2] = scale·R`, `M[:2,2] = c2 - scale·R·c1`,
`M[2,2] = 1`, where `R = (U·Vt)ᵀ` and `scale = s2/s1`. -/
def computeTransformation (points1 points2 : List (ℝ × ℝ))
    (U Vt : Mat2) : Mat3 :=
  let c1 := centroid points1
  let c2 := centroid points2
  let p1 := centerPts points1
  let p2 := centerPts points2
  let s1 := npStd p1
  let s2 := npStd p2
  let R := (Mat2.mul U Vt).transpose
  let scale := s2 / s1
  { m00 := scale * R.a, m01 := scale * R.b,
    m02 := c2.1 - scale * (R.a * c1.1 + R.b * c1.2),
    m10 := scale * R.c, m11 := scale * R.d,
    m12 := c2.2 - scale * (R.c * c1.1 + R.d * c1.2),
    m20 := 0, m21 := 0, m22 := 1 }

/-- IEEE division: dividing by zero yields a non-finite value (`±inf` for a
nonzero numerator, `NaN` for `0/0`), modelled as `none`. -/
def fdivF (a b : ℝ) : Option ℝ := if b = 0 then none else some (a / b)

/-- The `scale = s2 / s1` computed at `face_aligner.py` line 175, under IEEE
semantics: `none` when the first subset's spread `s1` is zero. -/
def scaleIEEE (points1 points2 : List (ℝ × ℝ)) : Option ℝ :=
  fdivF (npStd (centerPts points2)) (npStd (centerPts points1))

/-- The reflection `diag(1, -1)`: orthogonal with determinant `-1`. -/
def reflMat : Mat2 := { a := 1, b := 0, c := 0, d := -1 }

/-- A full-rank point set: the four corners of a square (spread 1). -/
def sqPts : List (ℝ × ℝ) := [(-1, -1), (1, 1), (1, -1), (-1, 1)]

/-- A collinear point set with nonzero spread. -/
def collinearPts : List (ℝ × ℝ) := [(0, 0), (2, 0)]

/-- A zero-spread point set (all points coincident). -/
def degPts : List (ℝ × ℝ) := [(1, 1), (1, 1)]

/-- A nondegenerate two-point set (used as the second subset). -/
def vertPts : List (ℝ × ℝ) := [(0, 0), (0, 2)]

end Aligner

/-! ## Concrete instances used to evaluate the embedding -/

/-- A simple concrete instantiation of the opaque library routines, used to
evaluate the embedding on concrete inputs: the triangulation of any point
set is the single triangle `(0,1,2)`, resizing reuses the source pixels,
masks are all-one, the affine solve returns the identity matrix and warping
samples the crop directly (what `cv2.warpAffine` does under an identity
transform). -/
def cvTriv : CVModel where
  delaunay := fun _ => [(0, 1, 2)]
  resize := fun img _ _ r c => img.data r c
  fillConvexPoly := fun _ _ _ _ _ => 1
  getAffineTransform := fun _ _ => some { a := 1, b := 0, tx := 0, c := 0, d := 1, ty := 0 }
  warpAffine := fun crop _ _ _ _ _ r c => crop.data r c

/-- An `h×w` constant image of pixel value `v`. -/
def constImg (h w : ℕ) (v : ℚ) : Img := { shape := [h, w], data := fun _ _ => v }

/-- A finite landmark set: the right triangle `(0,0), (3,0), (0,3)`. -/
def triLms : Lms := [(Fl.fin 0, Fl.fin 0), (Fl.fin 3, Fl.fin 0), (Fl.fin 0, Fl.fin 3)]

/-- Triangle vertex coordinates `(0,0), (2,0), (0,2)`. -/
def sqTri : List (ℚ × ℚ) := [(0, 0), (2, 0), (0, 2)]

/-- A landmark set whose first coordinate is NaN (fails validation). -/
def nanLms : Lms := [(Fl.nan, Fl.fin 0), (Fl.fin 3, Fl.fin 0), (Fl.fin 0, Fl.fin 3)]

/-- Pixel `(r, c)` lies outside rectangle `R`. -/
abbrev OutsideRect (R : Rect) (r c : ℕ) : Prop :=
  (r : ℤ) < R.y ∨ R.y + R.h ≤ (r : ℤ) ∨ (c : ℤ) < R.x ∨ R.x + R.w ≤ (c : ℤ)

/-- The behaviour §4.3 of the specification prescribes for a destination
rectangle partially outside the buffer, stated from the spec's words ("clip
to buffer bounds before writing, skip if the clipped region is empty"):
composite `dst·(1−mask) + warped·mask` over the clipped part of the
destination rectangle `r2`.  Stated for comparison with `morphTriangle`. -/
def morphTriangleSpecClip (mask warped : ℕ → ℕ → ℚ) (dst : Img) (r2 : Rect) : Img :=
  let dy1 := max 0 r2.y
  let dy2 := min (dst.h : ℤ) (r2.y + r2.h)
  let dx1 := max 0 r2.x
  let dx2 := min (dst.w : ℤ) (r2.x + r2.w)
  { shape := dst.shape,
    data := fun r c =>
      if dy1 ≤ (r : ℤ) ∧ (r : ℤ) < dy2 ∧ dx1 ≤ (c : ℤ) ∧ (c : ℤ) < dx2 then
        let mr := ((r : ℤ) - r2.y).toNat
        let mc := ((c : ℤ) - r2.x).toNat
        dst.data r c * (1 - mask mr mc) + warped mr mc * mask mr mc
      else dst.data r c }

/-! ## Theorems -/

theorem toU8_le_255 (x : ℚ) : toU8 (clip01 x * 255) ≤ 255 := by
  have h1 : clip01 x ≤ 1 := min_le_right _ _
  have h2 : clip01 x * 255 ≤ 255 := by nlinarith
  have h3 : (⌊clip01 x * 255⌋ : ℤ) ≤ 255 := by
    have := Int.floor_le_floor h2
    simpa using this
  simpa [toU8] using Int.toNat_le.mpr h3

/-- **C7.** Each of the six easing functions maps 0 to exactly 0 and 1 to
exactly 1 (`FaceMorpher._apply_easing`, exact rational arithmetic). -/
theorem claim_C7_easing_boundary (e : EasingFunction) :
    applyEasing 0 e = 0 ∧ applyEasing 1 e = 1 := by
  cases e <;> constructor <;> norm_num [applyEasing]

/-- **C10.** For every pair of image buffers, every alpha and every blend
mode, each pixel `_blend_images` returns is a natural number in `[0, 255]`,
produced by clipping the blended value to `[0, 1]` and scaling by 255. -/
theorem claim_C10_blend_range (model : CVModel) (mode : BlendMode) (alpha : ℚ)
    (warped1 warped2 : Img) (r c : ℕ) :
    ∃ n : ℕ, (blendImages model mode alpha warped1 warped2).data r c = (n : ℚ) ∧
      n ≤ 255 := by
  refine ⟨_, rfl, toU8_le_255 _⟩

/-- `_morph_triangle` does not change the shape of the destination buffer. -/
theorem morphTriangle_shape (model : CVModel) (cfg : MorphConfig)
    (srcImage dstImage : Img) (srcTri dstTri : List (ℚ × ℚ)) :
    (morphTriangle model cfg srcImage dstImage srcTri dstTri).shape =
      dstImage.shape := by
  simp only [morphTriangle]
  cases haff : model.getAffineTransform (relRect srcTri (boundingRect srcTri))
      (relRect dstTri (boundingRect dstTri)) with
  | none => split_ifs <;> rfl
  | some warpMat => split_ifs <;> rfl

/-- `_morph_triangle` writes only inside the destination triangle's bounding
rectangle: pixels outside it are untouched. -/
theorem morphTriangle_data_outside (model : CVModel) (cfg : MorphConfig)
    (srcImage dstImage : Img) (srcTri dstTri : List (ℚ × ℚ)) (r c : ℕ)
    (h : OutsideRect (boundingRect dstTri) r c) :
    (morphTriangle model cfg srcImage dstImage srcTri dstTri).data r c =
      dstImage.data r c := by
  simp only [morphTriangle]
  cases haff : model.getAffineTransform (relRect srcTri (boundingRect srcTri))
      (relRect dstTri (boundingRect dstTri)) with
  | none => split_ifs <;> rfl
  | some warpMat =>
    split_ifs with h1 h2 h3 h4
    · rfl
    · rfl
    · rfl
    · rfl
    · dsimp only
      split_ifs with h5
      · exfalso
        rcases h with h | h | h | h <;> omega
      · rfl

theorem warpImage_data_aux (model : CVModel) (cfg : MorphConfig) (image : Img)
    (src tgt : List (ℚ × ℚ)) (r c : ℕ) :
    ∀ (tri : List (ℕ × ℕ × ℕ)) (out : Img),
      (∀ t ∈ tri, OutsideRect (boundingRect (triPoints tgt t)) r c) →
      (tri.foldl (fun output t => morphTriangle model cfg image output
          (triPoints src t) (triPoints tgt t)) out).data r c = out.data r c := by
  intro tri
  induction tri with
  | nil => intro out _; rfl
  | cons t ts ih =>
    intro out h
    rw [List.foldl_cons,
      ih _ (fun u hu => h u (List.mem_cons_of_mem _ hu))]
    exact morphTriangle_data_outside model cfg image out _ _ r c
      (h t (List.mem_cons_self _ _))

/-- **C1 (amended).** `warp_image` initializes its destination buffer as a
copy of the source image (`output = image.copy()`, line 284), not as zeros:
a pixel lying outside every triangle's destination bounding rectangle still
holds the source image's value after the warp (which is nonzero whenever the
source pixel is). -/
theorem claim_C1_uncovered_pixels_keep_source (model : CVModel)
    (cfg : MorphConfig) (image : Img) (src tgt : List (ℚ × ℚ))
    (tri : List (ℕ × ℕ × ℕ)) (r c : ℕ)
    (h : ∀ t ∈ tri, OutsideRect (boundingRect (triPoints tgt t)) r c) :
    (warpImage model cfg image src tgt tri).data r c = image.data r c :=
  warpImage_data_aux model cfg image src tgt r c tri image h

theorem claim_C1_witness :
    (∀ t ∈ [((0 : ℕ), (1 : ℕ), (2 : ℕ))],
      OutsideRect (boundingRect (triPoints (lmsToQ triLms) t)) 5 5) ∧
    (warpImage cvTriv {} (constImg 6 6 7) (lmsToQ triLms) (lmsToQ triLms)
      [(0, 1, 2)]).data 5 5 = (constImg 6 6 7).data 5 5 :=
  ⟨by decide,
    claim_C1_uncovered_pixels_keep_source cvTriv {} (constImg 6 6 7)
      (lmsToQ triLms) (lmsToQ triLms) [(0, 1, 2)] 5 5 (by decide)⟩

/-- **C1 counterexample.** A warp of a constant image with value 7 leaves an
uncovered pixel at 7, not 0: the destination buffer does not start in an
all-zero state. -/
theorem claim_C1_counterexample :
    (warpImage cvTriv {} (constImg 6 6 7) (lmsToQ triLms) (lmsToQ triLms)
      [(0, 1, 2)]).data 5 5 = 7 ∧ (7 : ℚ) ≠ 0 := by
  constructor
  · decide
  · norm_num

/-- `_morph_triangle` skips the whole triangle whenever the destination
bounding rectangle is not entirely inside the destination buffer: the
clipped region's shape then differs from the warped patch's shape and the
function returns before writing (lines 594-596). -/
theorem morphTriangle_skip_of_clip (model : CVModel) (cfg : MorphConfig)
    (srcImage dstImage : Img) (srcTri dstTri : List (ℚ × ℚ))
    (h : (boundingRect dstTri).y < 0 ∨ (boundingRect dstTri).x < 0 ∨
      (dstImage.h : ℤ) < (boundingRect dstTri).y + (boundingRect dstTri).h ∨
      (dstImage.w : ℤ) < (boundingRect dstTri).x + (boundingRect dstTri).w) :
    morphTriangle model cfg srcImage dstImage srcTri dstTri = dstImage := by
  simp only [morphTriangle]
  cases haff : model.getAffineTransform (relRect srcTri (boundingRect srcTri))
      (relRect dstTri (boundingRect dstTri)) with
  | none => split_ifs <;> rfl
  | some warpMat =>
    split_ifs with h1 h2 h3 h4
    · rfl
    · rfl
    · rfl
    · rfl
    · exfalso
      push_neg at h1 h4
      rcases h with h | h | h | h <;> omega

/-- **C3 (amended).** A destination bounding rectangle that lies partially
or fully outside the destination buffer causes the triangle to be skipped
entirely — the buffer is unchanged, whether or not the clipped region is
empty; the clipped portion is never composited.  (The zero-area guard of
line 546 also skips, but `cv2.boundingRect` rectangles always have extent
at least 1, and a zero source-area triangle is likewise skipped via the
source-crop shape check.) -/
theorem claim_C3_partial_overlap_skips (model : CVModel) (cfg : MorphConfig)
    (srcImage dstImage : Img) (srcTri dstTri : List (ℚ × ℚ))
    (h : (boundingRect dstTri).y < 0 ∨ (boundingRect dstTri).x < 0 ∨
      (dstImage.h : ℤ) < (boundingRect dstTri).y + (boundingRect dstTri).h ∨
      (dstImage.w : ℤ) < (boundingRect dstTri).x + (boundingRect dstTri).w) :
    morphTriangle model cfg srcImage dstImage srcTri dstTri = dstImage :=
  morphTriangle_skip_of_clip model cfg srcImage dstImage srcTri dstTri h

theorem claim_C3_witness :
    (((constImg 2 2 0).h : ℤ) < (boundingRect sqTri).y + (boundingRect sqTri).h) ∧
    morphTriangle cvTriv {} (constImg 4 4 9) (constImg 2 2 0) sqTri sqTri =
      constImg 2 2 0 :=
  ⟨by decide,
    claim_C3_partial_overlap_skips cvTriv {} (constImg 4 4 9) (constImg 2 2 0)
      sqTri sqTri (by decide)⟩

/-- **C3 counterexample.** A triangle whose 3×3 destination rectangle pokes
outside a 2×2 buffer has a nonempty clipped region, yet `_morph_triangle`
leaves the buffer unchanged (all zeros), whereas the spec's
clip-and-composite behaviour would write the warped value 9 at pixel
`(0,0)`. -/
theorem claim_C3_counterexample :
    morphTriangle cvTriv {} (constImg 4 4 9) (constImg 2 2 0) sqTri sqTri =
      constImg 2 2 0 ∧
    (max 0 (boundingRect sqTri).y <
      min (((constImg 2 2 0).h : ℤ)) ((boundingRect sqTri).y + (boundingRect sqTri).h)) ∧
    (max 0 (boundingRect sqTri).x <
      min (((constImg 2 2 0).w : ℤ)) ((boundingRect sqTri).x + (boundingRect sqTri).w)) ∧
    (morphTriangleSpecClip (fun _ _ => 1) (fun _ _ => 9) (constImg 2 2 0)
      (boundingRect sqTri)).data 0 0 = 9 ∧
    (constImg 2 2 0).data 0 0 = 0 :=
  ⟨morphTriangle_skip_of_clip cvTriv {} (constImg 4 4 9) (constImg 2 2 0)
      sqTri sqTri (by decide),
    by decide, by decide,
    by
      unfold morphTriangleSpecClip
      dsimp only
      rw [if_pos (by decide)]
      norm_num [constImg],
    rfl⟩

theorem getD_map_range {α : Type} (f : ℕ → α) (N i : ℕ) (d : α) (h : i < N) :
    ((List.range N).map f).getD i d = f i := by
  rw [List.getD_eq_getElem _ _ (by simpa using h)]
  simp

/-- `warp_image` preserves the buffer shape. -/
theorem warpImage_shape (model : CVModel) (cfg : MorphConfig) (image : Img)
    (src tgt : List (ℚ × ℚ)) (tri : List (ℕ × ℕ × ℕ)) :
    (warpImage model cfg image src tgt tri).shape = image.shape := by
  suffices h : ∀ (l : List (ℕ × ℕ × ℕ)) (out : Img),
      (l.foldl (fun output t => morphTriangle model cfg image output
        (triPoints src t) (triPoints tgt t)) out).shape = out.shape from
    h tri image
  intro l
  induction l with
  | nil => intro out; rfl
  | cons t ts ih =>
    intro out
    rw [List.foldl_cons, ih, morphTriangle_shape]

/-- On validation success `stream_morph_frames` emits the mapped frame list
with `alpha = frame_idx / max(1, num_frames - 1)` and the cached
triangulation of the averaged landmarks. -/
theorem streamMorphFrames_of_valid (model : CVModel) (cfg : MorphConfig)
    (im1 im2 : Img) (lm1 lm2 : Lms) (N : ℕ)
    (h : validateInputs (some im1) (some im2) (some lm1) (some lm2) = true) :
    streamMorphFrames model cfg (some im1) (some im2) (some lm1) (some lm2) N =
      some ((List.range N).map (fun (i : ℕ) =>
        morphFrame model cfg im1 im2 (lmsToQ lm1) (lmsToQ lm2)
          ((i : ℚ) / (max 1 (N - 1) : ℕ))
          (model.delaunay (avgLandmarks (lmsToQ lm1) (lmsToQ lm2))))) := by
  simp only [streamMorphFrames, h, Bool.true_eq_false, if_false]

/-- The cross dissolve of two given (non-`None`) images succeeds and emits
`numFrames` frames, provided either the shapes agree or the first image is
at least 2-D (so the resize path does not raise). -/
theorem streamCrossDissolve_some (model : CVModel) (cfg : MorphConfig)
    (im1 im2 : Img) (N : ℕ)
    (h : im1.shape = im2.shape ∨ 2 ≤ im1.shape.length) :
    ∃ fs, streamCrossDissolve model cfg (some im1) (some im2) N = some fs ∧
      fs.length = N := by
  simp only [streamCrossDissolve]
  split_ifs with h1 h2
  · exact ⟨_, rfl, by rw [List.length_map, List.length_range]⟩
  · exfalso
    rcases h with h | h
    · exact h1 h
    · omega
  · exact ⟨_, rfl, by rw [List.length_map, List.length_range]⟩

/-- **C6 (amended).** When validation fails but both images are present
(and the shapes agree, or the first image is at least 2-D so the resize in
the fallback does not raise), `stream_morph_frames` yields exactly the
cross dissolve of the two raw images, with the same number of frames.  When
an image is `None`, validation fails but the fallback itself raises (see
`claim_C6_counterexample`). -/
theorem claim_C6_invalid_falls_back (model : CVModel) (cfg : MorphConfig)
    (im1 im2 : Img) (lm1 lm2 : Option Lms) (N : ℕ)
    (hval : validateInputs (some im1) (some im2) lm1 lm2 = false)
    (hsh : im1.shape = im2.shape ∨ 2 ≤ im1.shape.length) :
    streamMorphFrames model cfg (some im1) (some im2) lm1 lm2 N =
      streamCrossDissolve model cfg (some im1) (some im2) N ∧
    ∃ fs, streamMorphFrames model cfg (some im1) (some im2) lm1 lm2 N = some fs ∧
      fs.length = N := by
  have heq : streamMorphFrames model cfg (some im1) (some im2) lm1 lm2 N =
      streamCrossDissolve model cfg (some im1) (some im2) N := by
    simp only [streamMorphFrames, hval, eq_self_iff_true, if_true]
  refine ⟨heq, ?_⟩
  rw [heq]
  exact streamCrossDissolve_some model cfg im1 im2 N hsh

theorem claim_C6_witness :
    validateInputs (some (constImg 4 4 51)) (some (constImg 4 4 51))
      (some nanLms) (some triLms) = false ∧
    (streamMorphFrames cvTriv {} (some (constImg 4 4 51)) (some (constImg 4 4 51))
        (some nanLms) (some triLms) 5 =
      streamCrossDissolve cvTriv {} (some (constImg 4 4 51)) (some (constImg 4 4 51)) 5 ∧
    ∃ fs, streamMorphFrames cvTriv {} (some (constImg 4 4 51)) (some (constImg 4 4 51))
        (some nanLms) (some triLms) 5 = some fs ∧ fs.length = 5) :=
  ⟨by decide,
    claim_C6_invalid_falls_back cvTriv {} (constImg 4 4 51) (constImg 4 4 51)
      (some nanLms) (some triLms) 5 (by decide) (Or.inl rfl)⟩

/-- **C6 counterexample.** With a `None` first image, validation fails and
the fallback itself raises (`None.astype` — `AttributeError`, modelled as
`none`): no cross-fade frames are yielded, contradicting "does not raise or
abort". -/
theorem claim_C6_counterexample :
    validateInputs none (some (constImg 4 4 51)) (some triLms) (some triLms) = false ∧
    streamMorphFrames cvTriv {} none (some (constImg 4 4 51)) (some triLms)
      (some triLms) 3 = none :=
  ⟨rfl, rfl⟩

/-- The per-pair frames of `morph_faces` always split as a body of
`frames_per_transition` frames followed by `pause_frames` copies of the raw
second image. -/
theorem transitionFrames_split (model : CVModel) (cfg : MorphConfig)
    (im1 im2 : Img) (lm1 lm2 : Option Lms) (N M : ℕ)
    (hsh : im1.shape = im2.shape) :
    ∃ body, transitionFrames model cfg im1 im2 lm1 lm2 N M =
      some (body ++ List.replicate M im2) ∧ body.length = N := by
  rcases lm1 with _ | l1
  · simp only [transitionFrames]
    obtain ⟨fs, hfs, hlen⟩ :=
      streamCrossDissolve_some model cfg im1 im2 N (Or.inl hsh)
    rw [hfs]
    exact ⟨fs, rfl, hlen⟩
  · rcases lm2 with _ | l2
    · simp only [transitionFrames]
      obtain ⟨fs, hfs, hlen⟩ :=
        streamCrossDissolve_some model cfg im1 im2 N (Or.inl hsh)
      rw [hfs]
      exact ⟨fs, rfl, hlen⟩
    · simp only [transitionFrames]
      cases hval : validateInputs (some im1) (some im2) (some l1) (some l2) with
      | false =>
        have heq : streamMorphFrames model cfg (some im1) (some im2)
            (some l1) (some l2) N =
            streamCrossDissolve model cfg (some im1) (some im2) N := by
          simp only [streamMorphFrames, hval, eq_self_iff_true, if_true]
        rw [heq]
        obtain ⟨fs, hfs, hlen⟩ :=
          streamCrossDissolve_some model cfg im1 im2 N (Or.inl hsh)
        rw [hfs]
        exact ⟨fs, rfl, hlen⟩
      | true =>
        rw [streamMorphFrames_of_valid model cfg im1 im2 l1 l2 N hval]
        exact ⟨_, rfl, by rw [List.length_map, List.length_range]⟩

/-- **C8.** Each image pair contributes exactly
`frames_per_transition + pause_frames` frames to the video sink: a body of
`N` transition frames followed by `M` pause frames. -/
theorem claim_C8_transition_frame_count (model : CVModel) (cfg : MorphConfig)
    (im1 im2 : Img) (lm1 lm2 : Option Lms) (N M : ℕ)
    (hsh : im1.shape = im2.shape) :
    ∃ fs, transitionFrames model cfg im1 im2 lm1 lm2 N M = some fs ∧
      fs.length = N + M := by
  obtain ⟨body, heq, hlen⟩ :=
    transitionFrames_split model cfg im1 im2 lm1 lm2 N M hsh
  exact ⟨_, heq, by simp [hlen]⟩

theorem claim_C8_witness :
    ∃ fs, transitionFrames cvTriv {} (constImg 4 4 51) (constImg 4 4 51)
      (some triLms) (some triLms) 2 1 = some fs ∧ fs.length = 2 + 1 :=
  claim_C8_transition_frame_count cvTriv {} (constImg 4 4 51) (constImg 4 4 51)
    (some triLms) (some triLms) 2 1 rfl

/-- **C4 (amended).** The `pause_frames` frames emitted after a transition
are repetitions of the raw (resized) second input image `im2`
(`step_morph.py` line 272), not of the final synthesized frame; the two
coincide for blend modes whose blend at eased alpha 1 returns the second
warped image, but differ under the additive blend
(see `claim_C4_counterexample`). -/
theorem claim_C4_pause_frames_are_raw_im2 (model : CVModel) (cfg : MorphConfig)
    (im1 im2 : Img) (lm1 lm2 : Option Lms) (N M : ℕ)
    (hsh : im1.shape = im2.shape) :
    ∃ fs, transitionFrames model cfg im1 im2 lm1 lm2 N M = some fs ∧
      fs.drop N = List.replicate M im2 := by
  obtain ⟨body, heq, hlen⟩ :=
    transitionFrames_split model cfg im1 im2 lm1 lm2 N M hsh
  refine ⟨_, heq, ?_⟩
  rw [← hlen, List.drop_left]

theorem claim_C4_witness :
    ∃ fs, transitionFrames cvTriv { blendMode := .additive } (constImg 4 4 51)
      (constImg 4 4 51) (some triLms) (some triLms) 2 1 = some fs ∧
      fs.drop 2 = List.replicate 1 (constImg 4 4 51) :=
  claim_C4_pause_frames_are_raw_im2 cvTriv { blendMode := .additive }
    (constImg 4 4 51) (constImg 4 4 51) (some triLms) (some triLms) 2 1 rfl

/-- Under `cvTriv`, warping a constant image over the single triangle
`(0,1,2)` leaves every pixel at the constant value (the mask is 1, the
warped patch samples the constant crop). -/
theorem warpImage_cvTriv_const (cfg : MorphConfig) (hh ww : ℕ) (v : ℚ)
    (l1 l2 : List (ℚ × ℚ)) (r c : ℕ) :
    (warpImage cvTriv cfg (constImg hh ww v) l1 l2 [(0, 1, 2)]).data r c = v := by
  show (morphTriangle cvTriv cfg (constImg hh ww v) (constImg hh ww v)
      (triPoints l1 (0, 1, 2)) (triPoints l2 (0, 1, 2))).data r c = v
  generalize triPoints l1 (0, 1, 2) = sT
  generalize triPoints l2 (0, 1, 2) = dT
  simp only [morphTriangle, cvTriv]
  split_ifs with h1 h2 h3 h4
  · rfl
  · rfl
  · rfl
  · rfl
  · dsimp only [constImg]
    split_ifs with h5
    · ring
    · rfl

/-- On 4×4 constant images under `cvTriv` with the single triangle
`(0,1,2)`, a synthesized frame's pixel is the blended pair of constants. -/
theorem morphFrame_cvTriv_const_data (cfg : MorphConfig) (v1 v2 : ℚ)
    (l1 l2 : List (ℚ × ℚ)) (alpha : ℚ) (r c : ℕ) :
    (morphFrame cvTriv cfg (constImg 4 4 v1) (constImg 4 4 v2) l1 l2 alpha
      [(0, 1, 2)]).data r c =
      (blendOutPixel cfg.blendMode (applyEasing alpha cfg.easing)
        (v1 / 255) (v2 / 255) : ℚ) := by
  simp only [morphFrame, blendImages]
  split_ifs with hs
  · dsimp only
    rw [warpImage_cvTriv_const, warpImage_cvTriv_const]
  · exfalso
    exact hs (by
      show (warpImage cvTriv cfg (constImg 4 4 v1) l1 _ [(0, 1, 2)]).shape =
        (warpImage cvTriv cfg (constImg 4 4 v2) l2 _ [(0, 1, 2)]).shape
      rw [warpImage_shape, warpImage_shape]
      rfl)

/-- Explicit form of the per-pair frames when landmarks are present and
validation succeeds. -/
theorem transitionFrames_of_valid (model : CVModel) (cfg : MorphConfig)
    (im1 im2 : Img) (lm1 lm2 : Lms) (N M : ℕ)
    (h : validateInputs (some im1) (some im2) (some lm1) (some lm2) = true) :
    transitionFrames model cfg im1 im2 (some lm1) (some lm2) N M =
      some (((List.range N).map (fun (i : ℕ) =>
        morphFrame model cfg im1 im2 (lmsToQ lm1) (lmsToQ lm2)
          ((i : ℚ) / (max 1 (N - 1) : ℕ))
          (model.delaunay (avgLandmarks (lmsToQ lm1) (lmsToQ lm2))))) ++
        List.replicate M im2) := by
  simp only [transitionFrames]
  rw [streamMorphFrames_of_valid model cfg im1 im2 lm1 lm2 N h]
  rfl

/-- **C4 counterexample.** Under the additive blend, on two constant-51
images, the pause frame written after the transition (the raw second image,
pixel value 51) differs from the final synthesized frame (pixel value 102 =
`⌊min(51/255 + 1·51/255, 1)·255⌋`): the pause frames are not repetitions of
the final synthesized frame for every blend mode. -/
theorem claim_C4_counterexample :
    (((transitionFrames cvTriv { blendMode := .additive } (constImg 4 4 51)
        (constImg 4 4 51) (some triLms) (some triLms) 2 1).getD []).getD 2
        (constImg 4 4 0)).data 0 0 = 51 ∧
    (((transitionFrames cvTriv { blendMode := .additive } (constImg 4 4 51)
        (constImg 4 4 51) (some triLms) (some triLms) 2 1).getD []).getD 1
        (constImg 4 4 0)).data 0 0 = 102 ∧
    (51 : ℚ) ≠ 102 := by
  have hval : validateInputs (some (constImg 4 4 51)) (some (constImg 4 4 51))
      (some triLms) (some triLms) = true := by decide
  rw [transitionFrames_of_valid cvTriv { blendMode := .additive }
    (constImg 4 4 51) (constImg 4 4 51) triLms triLms 2 1 hval]
  refine ⟨?_, ?_, by norm_num⟩
  · rw [Option.getD_some, List.getD_append_right _ _ _ _
      (le_of_eq (by rw [List.length_map, List.length_range]))]
    simp [List.length_map, List.length_range, constImg]
  · rw [Option.getD_some, List.getD_append _ _ _ _
      (by rw [List.length_map, List.length_range]; omega)]
    rw [getD_map_range _ _ _ _ (by omega)]
    have htri : cvTriv.delaunay (avgLandmarks (lmsToQ triLms) (lmsToQ triLms)) =
        [(0, 1, 2)] := rfl
    rw [htri, morphFrame_cvTriv_const_data]
    norm_num [blendOutPixel, blendPixel, clip01, toU8, applyEasing,
      min_def, max_def]
    simp

/-- **C5 (amended).** `stream_morph_frames` emits exactly `N` frames and the
`i`-th uses `alpha = i / max(1, N - 1)`; for `N ≥ 2` this equals
`i / (N - 1)`, so the first frame uses alpha 0 and the last alpha 1.  (For
`N = 1` the sole frame uses alpha 0, not 1 — see
`claim_C5_counterexample`.) -/
theorem claim_C5_alpha_schedule (model : CVModel) (cfg : MorphConfig)
    (im1 im2 : Img) (lm1 lm2 : Lms) (N : ℕ)
    (hval : validateInputs (some im1) (some im2) (some lm1) (some lm2) = true)
    (hN : 2 ≤ N) :
    ∃ fs, streamMorphFrames model cfg (some im1) (some im2) (some lm1)
        (some lm2) N = some fs ∧
      fs.length = N ∧
      (∀ i, i < N → fs.getD i im1 =
        morphFrame model cfg im1 im2 (lmsToQ lm1) (lmsToQ lm2)
          ((i : ℚ) / ((N : ℚ) - 1))
          (model.delaunay (avgLandmarks (lmsToQ lm1) (lmsToQ lm2)))) ∧
      fs.getD 0 im1 =
        morphFrame model cfg im1 im2 (lmsToQ lm1) (lmsToQ lm2) 0
          (model.delaunay (avgLandmarks (lmsToQ lm1) (lmsToQ lm2))) ∧
      fs.getD (N - 1) im1 =
        morphFrame model cfg im1 im2 (lmsToQ lm1) (lmsToQ lm2) 1
          (model.delaunay (avgLandmarks (lmsToQ lm1) (lmsToQ lm2))) := by
  have hN1 : (1 : ℚ) < (N : ℚ) := by exact_mod_cast (by omega : 1 < N)
  have hcast : ((max 1 (N - 1) : ℕ) : ℚ) = (N : ℚ) - 1 := by
    rw [Nat.max_eq_right (by omega : 1 ≤ N - 1),
      Nat.cast_sub (by omega : 1 ≤ N), Nat.cast_one]
  have hone : (((N - 1 : ℕ)) : ℚ) / ((N : ℚ) - 1) = 1 := by
    rw [Nat.cast_sub (by omega : 1 ≤ N), Nat.cast_one]
    exact div_self (by linarith)
  refine ⟨_, streamMorphFrames_of_valid model cfg im1 im2 lm1 lm2 N hval,
    by rw [List.length_map, List.length_range], ?_, ?_, ?_⟩
  · intro i hi
    rw [getD_map_range _ _ _ _ hi, hcast]
  · rw [getD_map_range _ _ _ _ (by omega), hcast]
    norm_num
  · rw [getD_map_range _ _ _ _ (by omega), hcast, hone]

theorem claim_C5_witness :
    validateInputs (some (constImg 4 4 0)) (some (constImg 4 4 255))
      (some triLms) (some triLms) = true ∧ 2 ≤ 2 ∧
    ∃ fs, streamMorphFrames cvTriv {} (some (constImg 4 4 0))
        (some (constImg 4 4 255)) (some triLms) (some triLms) 2 = some fs ∧
      fs.getD 1 (constImg 4 4 0) =
        morphFrame cvTriv {} (constImg 4 4 0) (constImg 4 4 255)
          (lmsToQ triLms) (lmsToQ triLms) 1
          (cvTriv.delaunay (avgLandmarks (lmsToQ triLms) (lmsToQ triLms))) := by
  have hval : validateInputs (some (constImg 4 4 0)) (some (constImg 4 4 255))
      (some triLms) (some triLms) = true := by decide
  obtain ⟨fs, h1, _, _, _, h5⟩ := claim_C5_alpha_schedule cvTriv {}
    (constImg 4 4 0) (constImg 4 4 255) triLms triLms 2 hval (by norm_num)
  exact ⟨hval, by norm_num, fs, h1, by simpa using h5⟩

/-- **C5 counterexample.** With `frames_per_transition = 1` the single
emitted frame is synthesized at `alpha = 0/max(1,0) = 0` (pixel 0 from the
black first image), not at `alpha = 1` (which would give pixel 255 from the
white second image): the claim's `alpha = i/(N-1)` with "the last frame uses
alpha 1" fails at `N = 1`. -/
theorem claim_C5_counterexample :
    ((streamMorphFrames cvTriv {} (some (constImg 4 4 0))
        (some (constImg 4 4 255)) (some triLms) (some triLms) 1).getD
        []).length = 1 ∧
    (((streamMorphFrames cvTriv {} (some (constImg 4 4 0))
        (some (constImg 4 4 255)) (some triLms) (some triLms) 1).getD
        []).getD 0 (constImg 4 4 7)).data 0 0 = 0 ∧
    (morphFrame cvTriv {} (constImg 4 4 0) (constImg 4 4 255) (lmsToQ triLms)
        (lmsToQ triLms) 1 [(0, 1, 2)]).data 0 0 = 255 ∧
    (0 : ℚ) ≠ 255 := by
  have hval : validateInputs (some (constImg 4 4 0)) (some (constImg 4 4 255))
      (some triLms) (some triLms) = true := by decide
  rw [streamMorphFrames_of_valid cvTriv {} (constImg 4 4 0) (constImg 4 4 255)
    triLms triLms 1 hval]
  refine ⟨by rw [Option.getD_some, List.length_map, List.length_range], ?_, ?_,
    by norm_num⟩
  · rw [Option.getD_some, getD_map_range _ _ _ _ (by omega)]
    have htri : cvTriv.delaunay (avgLandmarks (lmsToQ triLms) (lmsToQ triLms)) =
        [(0, 1, 2)] := rfl
    rw [htri, morphFrame_cvTriv_const_data]
    norm_num [blendOutPixel, blendPixel, clip01, toU8, applyEasing,
      min_def, max_def]
  · rw [morphFrame_cvTriv_const_data]
    norm_num [blendOutPixel, blendPixel, clip01, toU8, applyEasing,
      min_def, max_def]
    simp

/-- **C2 (amended).** `_compute_transformation` contains no degeneracy
check (there is no `DegenerateGeometry` condition anywhere in the code):
when the first subset's spread is zero, the scale `s2 / s1` computed at
line 175 is a division by zero and hence non-finite under IEEE semantics
(`inf` for `s2 ≠ 0`, `NaN` for `s2 = 0`), instead of any failure being
signalled. -/
theorem claim_C2_zero_spread_nonfinite_scale (points1 points2 : List (ℝ × ℝ))
    (h : npStd (centerPts points1) = 0) :
    scaleIEEE points1 points2 = none := by
  simp [scaleIEEE, fdivF, h]

theorem claim_C2_witness :
    npStd (centerPts degPts) = 0 ∧ scaleIEEE degPts vertPts = none := by
  have h : npStd (centerPts degPts) = 0 := by
    norm_num [npStd, centerPts, centroid, degPts, flatten, lmean]
  exact ⟨h, claim_C2_zero_spread_nonfinite_scale degPts vertPts h⟩

/-- **C2 counterexample.** For the equal-length subsets
`[(1,1),(1,1)]` (zero spread) and `[(0,0),(0,2)]`, the computation does not
fail with any `DegenerateGeometry` condition — no such condition exists in
the code — and the scale it computes, `s2 / 0`, is non-finite. -/
theorem claim_C2_counterexample :
    degPts.length = vertPts.length ∧
    npStd (centerPts degPts) = 0 ∧
    scaleIEEE degPts vertPts = none := by
  have h : npStd (centerPts degPts) = 0 := by
    norm_num [npStd, centerPts, centroid, degPts, flatten, lmean]
  exact ⟨rfl, h, by simp [scaleIEEE, fdivF, h]⟩

theorem Mat2.mul_assoc (A B C : Mat2) : (A.mul B).mul C = A.mul (B.mul C) := by
  simp only [Mat2.mul, Mat2.ext_iff]
  exact ⟨by ring, by ring, by ring, by ring⟩

theorem Mat2.transpose_mul (A B : Mat2) :
    (A.mul B).transpose = B.transpose.mul A.transpose := by
  simp only [Mat2.mul, Mat2.transpose, Mat2.ext_iff]
  exact ⟨by ring, by ring, by ring, by ring⟩

theorem Mat2.mul_one (A : Mat2) : A.mul Mat2.one = A := by
  simp only [Mat2.mul, Mat2.one, Mat2.ext_iff]
  exact ⟨by ring, by ring, by ring, by ring⟩

theorem Mat2.one_mul (A : Mat2) : Mat2.one.mul A = A := by
  simp only [Mat2.mul, Mat2.one, Mat2.ext_iff]
  exact ⟨by ring, by ring, by ring, by ring⟩

theorem Mat2.det_mul (A B : Mat2) : (A.mul B).det = A.det * B.det := by
  simp only [Mat2.mul, Mat2.det]
  ring

theorem Mat2.isOrthogonal_mul {A B : Mat2} (hA : A.IsOrthogonal)
    (hB : B.IsOrthogonal) : (A.mul B).IsOrthogonal := by
  constructor
  · rw [Mat2.transpose_mul, Mat2.mul_assoc,
      ← Mat2.mul_assoc B B.transpose A.transpose, hB.1, Mat2.one_mul, hA.1]
  · rw [Mat2.transpose_mul, Mat2.mul_assoc,
      ← Mat2.mul_assoc A.transpose A B, hA.2, Mat2.one_mul, hB.2]

/-- An orthogonal matrix has determinant `±1`. -/
theorem Mat2.det_sq_of_orthogonal {M : Mat2} (hM : M.IsOrthogonal) :
    M.det ^ 2 = 1 := by
  have h1 := hM.1
  rw [Mat2.ext_iff] at h1
  obtain ⟨e1, e2, _, e4⟩ := h1
  simp only [Mat2.mul, Mat2.transpose, Mat2.one] at e1 e2 e4
  unfold Mat2.det
  linear_combination (M.c ^ 2 + M.d ^ 2) * e1 + e4 -
    (M.a * M.c + M.b * M.d) * e2

/-- A 2×2 orthogonal matrix with determinant 1 is a rotation:
`d = a`, `b = -c`. -/
theorem Mat2.rotation_form {M : Mat2} (hM : M.IsOrthogonal)
    (hdet : M.det = 1) : M.d = M.a ∧ M.b = -M.c := by
  have h1 := hM.1
  rw [Mat2.ext_iff] at h1
  obtain ⟨e1, e2, e3, e4⟩ := h1
  simp only [Mat2.mul, Mat2.transpose, Mat2.one] at e1 e2 e3 e4
  unfold Mat2.det at hdet
  constructor
  · linear_combination M.a * e4 - M.d * hdet - M.c * e2
  · linear_combination (-M.b) * e4 - M.c * hdet + M.d * e2

/-- Any valid SVD `U·diag(σ1,σ2)·Vt` of a symmetric matrix with
non-negative diagonal and positive determinant (a full-rank Gram matrix)
has `U·Vt = 1`: the rotation `_compute_transformation` extracts from
`np.linalg.svd` for `align(P, P)` is the identity. -/
theorem svd_self_rotation_id (A U Vt : Mat2) (σ1 σ2 : ℝ)
    (hsvd : IsSVD A U σ1 σ2 Vt) (hsym : A.b = A.c)
    (haa : 0 ≤ A.a) (hdd : 0 ≤ A.d) (hdet : 0 < A.det) :
    U.mul Vt = Mat2.one := by
  obtain ⟨hU, hVt, hσ2, hσ12, hA⟩ := hsvd
  have hσ1 : 0 ≤ σ1 := le_trans hσ2 hσ12
  -- determinant bookkeeping
  have hdU := Mat2.det_sq_of_orthogonal hU
  have hdV := Mat2.det_sq_of_orthogonal hVt
  have hdD : (Mat2.mk σ1 0 0 σ2).det = σ1 * σ2 := by
    simp [Mat2.det]
  have hdetA : A.det = (U.det * Vt.det) * (σ1 * σ2) := by
    rw [← hA, Mat2.det_mul, Mat2.det_mul, hdD]
    ring
  have hMdet2 : (U.det * Vt.det) ^ 2 = 1 := by
    rw [mul_pow, hdU, hdV, one_mul]
  have hσσ : 0 ≤ σ1 * σ2 := mul_nonneg hσ1 hσ2
  have hMdet : U.det * Vt.det = 1 := by
    have hfac : (U.det * Vt.det - 1) * (U.det * Vt.det + 1) = 0 := by
      linear_combination hMdet2
    rcases mul_eq_zero.mp hfac with hf | hf
    · linarith
    · exfalso
      have hneg : U.det * Vt.det = -1 := by linarith
      rw [hneg] at hdetA
      nlinarith
  -- the product M and its properties
  have hMorth : (U.mul Vt).IsOrthogonal := Mat2.isOrthogonal_mul hU hVt
  have hMdet1 : (U.mul Vt).det = 1 := by rw [Mat2.det_mul]; exact hMdet
  -- A · Mᵀ equals the symmetric PSD matrix U·D·Uᵀ
  have hS0 : A.mul (U.mul Vt).transpose =
      (U.mul (Mat2.mk σ1 0 0 σ2)).mul U.transpose := by
    rw [← hA, Mat2.transpose_mul, Mat2.mul_assoc,
      ← Mat2.mul_assoc Vt Vt.transpose U.transpose, hVt.1, Mat2.one_mul]
  have hS0b : ((U.mul (Mat2.mk σ1 0 0 σ2)).mul U.transpose).b =
      ((U.mul (Mat2.mk σ1 0 0 σ2)).mul U.transpose).c := by
    simp only [Mat2.mul, Mat2.transpose]
    ring
  have hS0a : 0 ≤ ((U.mul (Mat2.mk σ1 0 0 σ2)).mul U.transpose).a := by
    simp only [Mat2.mul, Mat2.transpose]
    nlinarith [mul_nonneg hσ1 (sq_nonneg U.a), mul_nonneg hσ2 (sq_nonneg U.b)]
  -- from now on treat M = U·Vt as opaque
  set M : Mat2 := U.mul Vt with hMdef
  obtain ⟨hda, hbc⟩ := Mat2.rotation_form hMorth hMdet1
  have hbce : (A.mul M.transpose).b = (A.mul M.transpose).c := by
    rw [hS0]; exact hS0b
  have hae : 0 ≤ (A.mul M.transpose).a := by
    rw [hS0]; exact hS0a
  have e : A.a * M.c + A.b * M.d = A.c * M.a + A.d * M.b := by
    simpa [Mat2.mul, Mat2.transpose] using hbce
  have ea : 0 ≤ A.a * M.a + A.b * M.b := by
    simpa [Mat2.mul, Mat2.transpose] using hae
  have e1 : M.a * M.a + M.b * M.b = 1 := by
    have h1 := hMorth.1
    rw [Mat2.ext_iff] at h1
    simpa [Mat2.mul, Mat2.transpose, Mat2.one] using h1.1
  clear_value M
  clear hA hS0 hS0a hS0b hbce hae hMorth hMdet1 hdetA hMdet2 hdU hdV hdD
  clear hMdet hσσ hσ12 hσ1 hσ2 hU hVt hMdef
  -- positivity of the diagonal of A
  have hApos : 0 < A.a ∧ 0 < A.d := by
    unfold Mat2.det at hdet
    constructor
    · rcases haa.lt_or_eq with h | h
      · exact h
      · exfalso
        rw [← h, hsym] at hdet
        nlinarith [sq_nonneg A.c]
    · rcases hdd.lt_or_eq with h | h
      · exact h
      · exfalso
        rw [← h, hsym] at hdet
        nlinarith [sq_nonneg A.c]
  -- the off-diagonal of M vanishes
  have hc0 : M.c = 0 := by
    have hsum : (A.a + A.d) * M.c = 0 := by
      linear_combination e + A.d * hbc - A.b * hda - M.a * hsym
    rcases mul_eq_zero.mp hsum with hf | hf
    · exfalso; nlinarith [hApos.1, hApos.2]
    · exact hf
  have hb0 : M.b = 0 := by rw [hbc, hc0, neg_zero]
  -- the diagonal of M is 1
  have ha1 : M.a * M.a = 1 := by
    rw [hb0] at e1
    linarith [e1]
  have ea' : 0 ≤ A.a * M.a := by
    rw [hb0] at ea
    simpa using ea
  have hanneg : 0 ≤ M.a := by
    by_contra h
    push_neg at h
    have hlt := mul_neg_of_pos_of_neg hApos.1 h
    linarith [ea', hlt]
  have haone : M.a = 1 := by
    have hfac : (M.a - 1) * (M.a + 1) = 0 := by
      linear_combination ha1
    rcases mul_eq_zero.mp hfac with hf | hf
    · linarith
    · exfalso; linarith
  rw [Mat2.ext_iff]
  refine ⟨haone, hb0, hc0, ?_⟩
  rw [hda, haone]
  rfl

theorem zipWith_self {α β : Type} (f : α → α → β) (l : List α) :
    List.zipWith f l l = l.map (fun x => f x x) := by
  induction l with
  | nil => rfl
  | cons x xs ih => simp [ih]

theorem sum_map_zero {α : Type} (l : List α) :
    (l.map (fun _ => (0 : ℝ))).sum = 0 := by
  induction l with
  | nil => rfl
  | cons x xs ih => simp [ih]

/-- The cross-covariance of a point list with itself is symmetric. -/
theorem crossMat_self_symm (l : List (ℝ × ℝ)) :
    (crossMat l l).b = (crossMat l l).c := by
  simp only [crossMat, zipWith_self]
  congr 1
  exact List.map_congr_left (fun x _ => mul_comm x.1 x.2)

/-- The cross-covariance of a point list with itself has a non-negative
diagonal (sums of squares). -/
theorem crossMat_self_diag_nonneg (l : List (ℝ × ℝ)) :
    0 ≤ (crossMat l l).a ∧ 0 ≤ (crossMat l l).d := by
  constructor <;>
  · simp only [crossMat, zipWith_self]
    apply List.sum_nonneg
    intro x hx
    obtain ⟨y, _, rfl⟩ := List.mem_map.mp hx
    exact mul_self_nonneg _

/-- Aligning a point set `P` onto itself yields exactly the identity
transform — rotation part the identity, scale 1, translation 0 — for
every valid SVD of the cross-covariance matrix, provided that matrix is
nonsingular (the centered points span both dimensions).  This covers
every output `np.linalg.svd` can return on such inputs. -/
theorem computeTransformation_self_of_full_rank (P : List (ℝ × ℝ)) (U Vt : Mat2)
    (σ1 σ2 : ℝ) (hsvd : IsSVD (svdInput P P) U σ1 σ2 Vt)
    (hdet : 0 < (svdInput P P).det) :
    computeTransformation P P U Vt = Mat3.one := by
  have hnl : svdInput P P =
      crossMat (divPts (centerPts P) (npStd (centerPts P)))
        (divPts (centerPts P) (npStd (centerPts P))) := rfl
  have hsym : (svdInput P P).b = (svdInput P P).c := by
    rw [hnl]; exact crossMat_self_symm _
  have haa : 0 ≤ (svdInput P P).a := by
    rw [hnl]; exact (crossMat_self_diag_nonneg _).1
  have hdd : 0 ≤ (svdInput P P).d := by
    rw [hnl]; exact (crossMat_self_diag_nonneg _).2
  have hrot : U.mul Vt = Mat2.one :=
    svd_self_rotation_id _ U Vt σ1 σ2 hsvd hsym haa hdd hdet
  have hs : npStd (centerPts P) ≠ 0 := by
    intro h0
    have hzero : svdInput P P = Mat2.mk 0 0 0 0 := by
      rw [hnl, h0]
      simp [divPts, crossMat, zipWith_self, Mat2.ext_iff, List.map_map,
        Function.comp, sum_map_zero]
    rw [hzero] at hdet
    simp [Mat2.det] at hdet
  simp only [computeTransformation, hrot, div_self hs]
  simp only [Mat2.transpose, Mat2.one, Mat3.one, Mat3.mk.injEq]
  refine ⟨by ring, by ring, by ring, by ring, by ring, by ring, trivial,
    trivial, trivial⟩

/-- Instantiation of `computeTransformation_self_of_full_rank` on the
square point set. -/
theorem computeTransformation_self_square :
    IsSVD (svdInput sqPts sqPts) Mat2.one 4 4 Mat2.one ∧
    0 < (svdInput sqPts sqPts).det ∧
    computeTransformation sqPts sqPts Mat2.one Mat2.one = Mat3.one := by
  have hstd : npStd (centerPts sqPts) = 1 := by
    norm_num [npStd, centerPts, centroid, sqPts, flatten, lmean, Real.sqrt_one]
  have hA : svdInput sqPts sqPts = Mat2.mk 4 0 0 4 := by
    simp only [svdInput]
    rw [hstd]
    norm_num [divPts, crossMat, centerPts, centroid, sqPts, Mat2.mk.injEq]
  have hsvd : IsSVD (svdInput sqPts sqPts) Mat2.one 4 4 Mat2.one := by
    rw [hA]
    refine ⟨⟨?_, ?_⟩, ⟨?_, ?_⟩, by norm_num, le_refl _, ?_⟩ <;>
      norm_num [Mat2.mul, Mat2.one, Mat2.transpose, Mat2.mk.injEq]
  have hdet : 0 < (svdInput sqPts sqPts).det := by
    rw [hA]
    norm_num [Mat2.det]
  exact ⟨hsvd, hdet,
    computeTransformation_self_of_full_rank sqPts Mat2.one Mat2.one 4 4 hsvd hdet⟩

/-- For the collinear point set `[(0,0), (2,0)]` (nonzero spread) the
cross-covariance `diag(4, 0)` is rank-deficient and its SVD is not
unique: `Vt = diag(1, -1)` also gives a valid factorization, and under
that factorization the transform's rotation entry `m11` is `-1`.  The
contract of `np.linalg.svd` (some valid SVD with descending singular
values) therefore does not determine the result of aligning a collinear
set onto itself; the full-rank theorem above does not extend to this
case by the contract alone. -/
theorem computeTransformation_self_collinear_ambiguous :
    IsSVD (svdInput collinearPts collinearPts) Mat2.one 4 0 reflMat ∧
    npStd (centerPts collinearPts) ≠ 0 ∧
    (computeTransformation collinearPts collinearPts Mat2.one reflMat).m11 =
      -1 := by
  have hc : centerPts collinearPts = [(-1, 0), (1, 0)] := by
    norm_num [centerPts, centroid, collinearPts]
  have hvar : npStd [((-1 : ℝ), (0 : ℝ)), (1, 0)] = Real.sqrt (1/2) := by
    norm_num [npStd, flatten, lmean]
  have ht2 : npStd [((-1 : ℝ), (0 : ℝ)), (1, 0)] *
      npStd [((-1 : ℝ), (0 : ℝ)), (1, 0)] = 1/2 := by
    rw [hvar]
    exact Real.mul_self_sqrt (by norm_num)
  have htpos : 0 < npStd [((-1 : ℝ), (0 : ℝ)), (1, 0)] := by
    rw [hvar]
    exact Real.sqrt_pos.mpr (by norm_num)
  have hspos : 0 < npStd (centerPts collinearPts) := by
    rw [hc]; exact htpos
  have hA : svdInput collinearPts collinearPts = Mat2.mk 4 0 0 0 := by
    rw [svdInput, hc]
    rw [Mat2.ext_iff]
    simp only [divPts, crossMat, List.map_cons, List.map_nil,
      List.zipWith_cons_cons, List.zipWith_nil_right, List.sum_cons,
      List.sum_nil]
    norm_num
    have hne := htpos.ne'
    field_simp
    linarith [ht2]
  have hsvd : IsSVD (svdInput collinearPts collinearPts) Mat2.one 4 0 reflMat := by
    rw [hA]
    refine ⟨⟨?_, ?_⟩, ⟨?_, ?_⟩, le_refl _, by norm_num, ?_⟩ <;>
      norm_num [Mat2.mul, Mat2.one, Mat2.transpose, reflMat, Mat2.mk.injEq]
  refine ⟨hsvd, hspos.ne', ?_⟩
  simp only [computeTransformation, div_self hspos.ne']
  norm_num [Mat2.mul, Mat2.one, Mat2.transpose, reflMat]

end MorphoLapse
